import Mathlib

/-!
Shallow embedding of the four backup/restore scripts
(`scripts/backup_db.py`, `scripts/backup_workspace.py`,
`scripts/restore_db.py`, `scripts/restore_workspace.py`).

The live database file is a byte sequence, the live workspace a directory
tree, and the backup root an association list from entry name to node
(file or directory), wrapped in `Option` to model a non-existent directory.
Each script is a function from state (plus the `strftime` timestamp for the
backup scripts) to a new state and an outcome (printed line, exit status).
-/

/-- Byte content of a file. -/
abbrev Bytes := List Nat

/-- A filesystem node: a regular file with its bytes, or a directory given
as an association list from child name to child node. -/
inductive FNode where
  | file : Bytes → FNode
  | dir : List (String × FNode) → FNode

/-- Entries of a directory: association list from name to node. -/
abbrev Entries := List (String × FNode)

/-- Look a name up in a directory's entries. -/
def lookupEntry : Entries → String → Option FNode
  | [], _ => none
  | (n, v) :: rest, k => if n = k then some v else lookupEntry rest k

/-- Create or replace the entry of name `k` (what writing to path `k`
inside the directory does). -/
def insertEntry : Entries → String → FNode → Entries
  | [], k, v => [(k, v)]
  | (n, w) :: rest, k, v =>
      if n = k then (k, v) :: rest else (n, w) :: insertEntry rest k v

/-- Test `isPre p l`: `p` is an initial segment of `l`
(Python `str.startswith` on the underlying code points). -/
def isPre : List Char → List Char → Bool
  | [], _ => true
  | _ :: _, [] => false
  | a :: as, b :: bs => a == b && isPre as bs

/-- Test `isSuf s l`: `s` is a final segment of `l`
(Python `str.endswith` on the underlying code points). -/
def isSuf (s l : List Char) : Bool := isPre s.reverse l.reverse

/-- Filter used by `restore_db.py`:
`f.startswith('db_backup_') and f.endswith('.sqlite3')`. -/
def dbMatch (n : String) : Bool :=
  isPre "db_backup_".data n.data && isSuf ".sqlite3".data n.data

/-- Filter used by `restore_workspace.py`:
`f.startswith('workspace_backup_')`. -/
def wsMatch (n : String) : Bool :=
  isPre "workspace_backup_".data n.data

/-- Python's `<` on strings: lexicographic comparison of code points. -/
def lexLt : List Char → List Char → Bool
  | _, [] => false
  | [], _ :: _ => true
  | a :: as, b :: bs =>
      if a.toNat < b.toNat then true
      else if b.toNat < a.toNat then false
      else lexLt as bs

/-- Holds when `a` is not below `b` in Python's string order; the
comparison under which `backups.sort(reverse=True)` sorts. -/
def strGe (a b : String) : Prop := lexLt a.data b.data = false

instance : DecidableRel strGe :=
  fun a b => instDecidableEqBool (lexLt a.data b.data) false

/-- Model of `backups.sort(reverse=True)`: sort descending by code-point
order. -/
def pySortDesc (l : List String) : List String := List.insertionSort strGe l

/-- Model of `backups.sort(reverse=True)` followed by `backups[0]`: the selected
artifact name, `none` when the list is empty. -/
def latest (l : List String) : Option String := (pySortDesc l).head?

/-- The filesystem state the scripts act on: the live database file, the
live workspace directory, and the backup root (`backups/`); `none` means
the path does not exist. -/
structure St where
  liveDb : Option Bytes
  liveWs : Option Entries
  root : Option Entries

/-- The observable outcome of one run: the printed status line, with
`ok` for exit status 0 and `err` for a non-zero exit (an `exit(1)` or an
uncaught exception). -/
inductive Outcome where
  | ok : String → Outcome
  | err : String → Outcome
deriving DecidableEq

/-- Process exit code of an outcome. -/
def exitCode : Outcome → Nat
  | .ok _ => 0
  | .err _ => 1

/-- Destination filename of `backup_db.py`: `f'db_backup_{TS}.sqlite3'`. -/
def dstDbName (ts : String) : String := "db_backup_" ++ ts ++ ".sqlite3"

/-- Destination name of `backup_workspace.py`: `f'workspace_backup_{TS}'`. -/
def dstWsName (ts : String) : String := "workspace_backup_" ++ ts

/-- Effect of `shutil.copy2(SRC, DST)` on the backup root: overwrite an existing
file entry named `dst`; if the existing entry is a directory, `copy2`
copies into it under the source's basename. -/
def copy2Into (root : Entries) (dst base : String) (b : Bytes) : Entries :=
  match lookupEntry root dst with
  | some (.dir d) => insertEntry root dst (.dir (insertEntry d base (.file b)))
  | _ => insertEntry root dst (.file b)

/-- Model of `scripts/backup_db.py`: ensure `backups/` exists, then if the live
database file exists copy it to `backups/db_backup_<ts>.sqlite3`;
otherwise report absence. Exit status is 0 in both cases. -/
def backup_db (ts : String) (s : St) : St × Outcome :=
  let root := s.root.getD []
  let dst := dstDbName ts
  match s.liveDb with
  | some b =>
      ({ s with root := some (copy2Into root dst "workspace.db" b) },
       .ok ("Database backup created: backups/" ++ dst))
  | none => ({ s with root := some root }, .ok "No database file found to backup.")

/-- Model of `scripts/backup_workspace.py`: ensure `backups/` exists, then if the
live workspace exists `shutil.copytree` it to
`backups/workspace_backup_<ts>`; `copytree` raises `FileExistsError` when
the destination already exists. Source absence is reported with exit 0. -/
def backup_workspace (ts : String) (s : St) : St × Outcome :=
  let root := s.root.getD []
  let dst := dstWsName ts
  match s.liveWs with
  | some d =>
      match lookupEntry root dst with
      | some _ => ({ s with root := some root }, .err "FileExistsError")
      | none =>
          ({ s with root := some (insertEntry root dst (.dir d)) },
           .ok ("Workspace backup created: backups/" ++ dst))
  | none => ({ s with root := some root }, .ok "No workspace directory found to backup.")

/-- The artifact name `restore_db.py` selects from the backup root's
listing: filter, sort descending, take the first element. -/
def dbChosen (root : Entries) : Option String :=
  latest ((root.map Prod.fst).filter dbMatch)

/-- The artifact name `restore_workspace.py` selects. -/
def wsChosen (root : Entries) : Option String :=
  latest ((root.map Prod.fst).filter wsMatch)

/-- Model of `scripts/restore_db.py`: list `backups/` (`FileNotFoundError` when it
does not exist), filter, exit 1 when nothing matches, else copy the
lexicographically greatest match over the live database file
(`copy2` fails when the selected entry is a directory). -/
def restore_db (s : St) : St × Outcome :=
  match s.root with
  | none => (s, .err "FileNotFoundError")
  | some root =>
      match dbChosen root with
      | none => (s, .err "No DB backup found.")
      | some chosen =>
          match lookupEntry root chosen with
          | some (.file b) =>
              ({ s with liveDb := some b },
               .ok ("Database restored from: backups/" ++ chosen))
          | _ => (s, .err "IsADirectoryError")

/-- Model of `scripts/restore_workspace.py`: list `backups/`, filter, exit 1 when
nothing matches; else `rmtree` the live workspace when it exists, then
`copytree` the selected artifact to the live path (`copytree` fails after
the delete when the selected entry is a regular file). -/
def restore_workspace (s : St) : St × Outcome :=
  match s.root with
  | none => (s, .err "FileNotFoundError")
  | some root =>
      match wsChosen root with
      | none => (s, .err "No workspace backup found.")
      | some chosen =>
          match lookupEntry root chosen with
          | some (.dir d) =>
              ({ s with liveWs := some d },
               .ok ("Workspace restored from: backups/" ++ chosen))
          | _ => ({ s with liveWs := none }, .err "NotADirectoryError")

/-! ### Properties of the code-point order -/

theorem charToNat_inj {a b : Char} (h : a.toNat = b.toNat) : a = b := by
  rw [← Char.ofNat_toNat a, ← Char.ofNat_toNat b, h]

theorem lexLt_irrefl (a : List Char) : lexLt a a = false := by
  induction a with
  | nil => rfl
  | cons x xs ih => simp [lexLt, ih]

theorem lexLt_asymm :
    ∀ a b : List Char, lexLt a b = true → lexLt b a = true → False := by
  intro a
  induction a with
  | nil =>
    intro b h1 h2
    cases b with
    | nil => simp [lexLt] at h1
    | cons y ys => simp [lexLt] at h2
  | cons x xs ih =>
    intro b h1 h2
    cases b with
    | nil => simp [lexLt] at h1
    | cons y ys =>
      by_cases hxy : x.toNat < y.toNat
      · simp [lexLt, hxy, show ¬ y.toNat < x.toNat by omega] at h2
      · by_cases hyx : y.toNat < x.toNat
        · simp [lexLt, hxy, hyx] at h1
        · simp [lexLt, hxy, hyx] at h1 h2
          exact ih ys h1 h2

theorem lexLt_notLt_trans :
    ∀ a b c : List Char, lexLt a b = false → lexLt b c = false → lexLt a c = false := by
  intro a
  induction a with
  | nil =>
    intro b c h1 h2
    cases b with
    | nil =>
      cases c with
      | nil => rfl
      | cons z zs => simp [lexLt] at h2
    | cons y ys => simp [lexLt] at h1
  | cons x xs ih =>
    intro b c h1 h2
    cases b with
    | nil =>
      cases c with
      | nil => rfl
      | cons z zs => simp [lexLt] at h2
    | cons y ys =>
      cases c with
      | nil => rfl
      | cons z zs =>
        by_cases hxy : x.toNat < y.toNat
        · simp [lexLt, hxy] at h1
        · by_cases hyz : y.toNat < z.toNat
          · simp [lexLt, hyz] at h2
          · by_cases hyx : y.toNat < x.toNat
            · by_cases hzy : z.toNat < y.toNat
              · simp [lexLt, show ¬ x.toNat < z.toNat by omega,
                  show z.toNat < x.toNat by omega]
              · simp [lexLt, show ¬ x.toNat < z.toNat by omega,
                  show z.toNat < x.toNat by omega]
            · by_cases hzy : z.toNat < y.toNat
              · simp [lexLt, show ¬ x.toNat < z.toNat by omega,
                  show z.toNat < x.toNat by omega]
              · simp [lexLt, hxy, hyx] at h1
                simp [lexLt, hyz, hzy] at h2
                simp [lexLt, show ¬ x.toNat < z.toNat by omega,
                  show ¬ z.toNat < x.toNat by omega]
                exact ih ys zs h1 h2

theorem lexLt_eq_of_notLt :
    ∀ a b : List Char, lexLt a b = false → lexLt b a = false → a = b := by
  intro a
  induction a with
  | nil =>
    intro b h1 _
    cases b with
    | nil => rfl
    | cons y ys => simp [lexLt] at h1
  | cons x xs ih =>
    intro b h1 h2
    cases b with
    | nil => simp [lexLt] at h2
    | cons y ys =>
      by_cases hxy : x.toNat < y.toNat
      · simp [lexLt, hxy] at h1
      · by_cases hyx : y.toNat < x.toNat
        · simp [lexLt, hyx] at h2
        · simp [lexLt, hxy, hyx] at h1 h2
          have hx : x = y := charToNat_inj (by omega)
          rw [hx, ih ys h1 h2]

instance : IsTotal String strGe := by
  constructor
  intro a b
  by_cases h : lexLt a.data b.data = false
  · exact Or.inl h
  · right
    by_cases h2 : lexLt b.data a.data = false
    · exact h2
    · exact absurd (lexLt_asymm a.data b.data (by revert h; cases lexLt a.data b.data <;> simp)
        (by revert h2; cases lexLt b.data a.data <;> simp)) id

instance : IsTrans String strGe :=
  ⟨fun a b c h1 h2 => lexLt_notLt_trans a.data b.data c.data h1 h2⟩

/-! ### Properties of the selection (`sort(reverse=True)` then `[0]`) -/

theorem latest_mem_max {l : List String} {m : String} (h : latest l = some m) :
    m ∈ l ∧ ∀ x ∈ l, lexLt m.data x.data = false := by
  have hperm : List.Perm (pySortDesc l) l := List.perm_insertionSort strGe l
  have hsort : List.Sorted strGe (pySortDesc l) := List.sorted_insertionSort strGe l
  unfold latest at h
  cases hs : pySortDesc l with
  | nil => rw [hs] at h; simp at h
  | cons a t =>
    rw [hs] at h hperm hsort
    simp only [List.head?] at h
    cases h
    constructor
    · exact hperm.mem_iff.mp (List.mem_cons_self m t)
    · intro x hx
      have hx' : x ∈ m :: t := hperm.mem_iff.mpr hx
      rcases List.mem_cons.mp hx' with rfl | hxt
      · exact lexLt_irrefl _
      · exact List.rel_of_sorted_cons hsort x hxt

theorem latest_some_of_ne_nil {l : List String} (h : l ≠ []) :
    ∃ m, latest l = some m := by
  have hperm : List.Perm (pySortDesc l) l := List.perm_insertionSort strGe l
  cases hs : pySortDesc l with
  | nil =>
    rw [hs] at hperm
    exact absurd hperm.symm.eq_nil h
  | cons a t => exact ⟨a, by simp [latest, hs]⟩

theorem latest_none_iff {l : List String} : latest l = none ↔ l = [] := by
  constructor
  · intro h
    by_contra hne
    obtain ⟨m, hm⟩ := latest_some_of_ne_nil hne
    rw [h] at hm
    cases hm
  · intro h
    subst h
    rfl

theorem latest_eq_of_max {l : List String} {d : String} (hd : d ∈ l)
    (hmax : ∀ x ∈ l, x = d ∨ lexLt x.data d.data = true) : latest l = some d := by
  obtain ⟨m, hm⟩ := latest_some_of_ne_nil (List.ne_nil_of_mem hd)
  obtain ⟨hmem, hge⟩ := latest_mem_max hm
  rcases hmax m hmem with rfl | hlt
  · exact hm
  · rw [hge d hd] at hlt
    cases hlt

/-! ### String and name lemmas -/

theorem data_append (a b : String) : (a ++ b).data = a.data ++ b.data := rfl

theorem isPre_append (p x : List Char) : isPre p (p ++ x) = true := by
  induction p with
  | nil => rfl
  | cons a as ih => simp [isPre, ih]

theorem isSuf_append (s x : List Char) : isSuf s (x ++ s) = true := by
  unfold isSuf
  rw [List.reverse_append]
  exact isPre_append s.reverse x.reverse

theorem dstDbName_data (ts : String) :
    (dstDbName ts).data = "db_backup_".data ++ ts.data ++ ".sqlite3".data := by
  unfold dstDbName
  rw [data_append, data_append]

theorem dstWsName_data (ts : String) :
    (dstWsName ts).data = "workspace_backup_".data ++ ts.data := by
  unfold dstWsName
  rw [data_append]

theorem dbMatch_dst (ts : String) : dbMatch (dstDbName ts) = true := by
  unfold dbMatch
  rw [dstDbName_data, Bool.and_eq_true]
  constructor
  · rw [List.append_assoc]
    exact isPre_append _ _
  · exact isSuf_append ".sqlite3".data ("db_backup_".data ++ ts.data)

theorem wsMatch_dst (ts : String) : wsMatch (dstWsName ts) = true := by
  unfold wsMatch
  rw [dstWsName_data]
  exact isPre_append _ _

theorem lexLt_append_left :
    ∀ p a b : List Char, lexLt (p ++ a) (p ++ b) = lexLt a b := by
  intro p
  induction p with
  | nil => intro a b; rfl
  | cons x xs ih =>
    intro a b
    show lexLt (x :: (xs ++ a)) (x :: (xs ++ b)) = lexLt a b
    simp [lexLt, ih a b]

theorem lexLt_append_of_lt :
    ∀ a b u v : List Char, a.length = b.length → lexLt a b = true →
      lexLt (a ++ u) (b ++ v) = true := by
  intro a
  induction a with
  | nil =>
    intro b u v hlen h
    cases b with
    | nil => simp [lexLt] at h
    | cons y ys => simp at hlen
  | cons x xs ih =>
    intro b u v hlen h
    cases b with
    | nil => simp at hlen
    | cons y ys =>
      by_cases hxy : x.toNat < y.toNat
      · simp [lexLt, hxy]
      · by_cases hyx : y.toNat < x.toNat
        · simp [lexLt, hxy, hyx] at h
        · simp [lexLt, hxy, hyx] at h ⊢
          exact ih ys u v (by simpa using hlen) h

/-! ### Lookup and insert lemmas -/

theorem lookup_insert (r : Entries) (k : String) (v : FNode) :
    lookupEntry (insertEntry r k v) k = some v := by
  induction r with
  | nil => simp [insertEntry, lookupEntry]
  | cons e rest ih =>
    obtain ⟨n, w⟩ := e
    by_cases hn : n = k
    · simp [insertEntry, hn, lookupEntry]
    · simp [insertEntry, hn, lookupEntry, ih]

theorem lookup_insert_ne (r : Entries) (k k' : String) (v : FNode) (h : k' ≠ k) :
    lookupEntry (insertEntry r k v) k' = lookupEntry r k' := by
  induction r with
  | nil => simp [insertEntry, lookupEntry, Ne.symm h]
  | cons e rest ih =>
    obtain ⟨n, w⟩ := e
    by_cases hn : n = k
    · subst hn
      simp [insertEntry, lookupEntry, Ne.symm h]
    · by_cases hk : n = k'
      · subst hk
        simp [insertEntry, hn, lookupEntry]
      · simp [insertEntry, hn, lookupEntry, hk, ih]

theorem lookup_some_mem {r : Entries} {k : String} {v : FNode}
    (h : lookupEntry r k = some v) : k ∈ r.map Prod.fst := by
  induction r with
  | nil => simp [lookupEntry] at h
  | cons e rest ih =>
    obtain ⟨n, w⟩ := e
    by_cases hn : n = k
    · simp [hn]
    · simp [lookupEntry, hn] at h
      simp [ih h]

theorem lookup_none_iff {r : Entries} {k : String} :
    lookupEntry r k = none ↔ k ∉ r.map Prod.fst := by
  induction r with
  | nil => simp [lookupEntry]
  | cons e rest ih =>
    obtain ⟨n, w⟩ := e
    by_cases hn : n = k
    · subst hn
      simp [lookupEntry]
    · simp only [lookupEntry, if_neg hn, List.map_cons, List.mem_cons]
      rw [ih]
      constructor
      · intro hk hor
        rcases hor with h1 | h2
        · exact hn h1.symm
        · exact hk h2
      · intro hk h2
        exact hk (Or.inr h2)

theorem names_insert_of_fresh {r : Entries} {k : String} (v : FNode)
    (h : lookupEntry r k = none) :
    (insertEntry r k v).map Prod.fst = r.map Prod.fst ++ [k] := by
  induction r with
  | nil => simp [insertEntry]
  | cons e rest ih =>
    obtain ⟨n, w⟩ := e
    by_cases hn : n = k
    · simp [lookupEntry, hn] at h
    · simp only [lookupEntry, if_neg hn] at h
      simp [insertEntry, hn, ih h]

theorem lookup_copy2Into_self (root : Entries) (dst base : String) (b : Bytes) :
    lookupEntry (copy2Into root dst base b) dst ≠ none := by
  unfold copy2Into
  cases hl : lookupEntry root dst with
  | none => rw [lookup_insert]; exact Option.noConfusion
  | some v =>
    cases v with
    | file c => rw [lookup_insert]; exact Option.noConfusion
    | dir d => rw [lookup_insert]; exact Option.noConfusion

theorem lookup_mem_of_nodup {r : Entries} {k : String} {v : FNode}
    (hnd : (r.map Prod.fst).Nodup) (h : (k, v) ∈ r) : lookupEntry r k = some v := by
  induction r with
  | nil => simp at h
  | cons e rest ih =>
    obtain ⟨n, w⟩ := e
    simp only [List.map_cons, List.nodup_cons] at hnd
    rcases List.mem_cons.mp h with heq | htail
    · cases heq
      simp [lookupEntry]
    · by_cases hn : n = k
      · subst hn
        exact absurd (by simpa using List.mem_map_of_mem Prod.fst htail) hnd.1
      · simp [lookupEntry, hn]
        exact ih hnd.2 htail

/-! ### Frame helpers for the restore scripts -/

theorem restore_db_frame (s : St) :
    (restore_db s).1.root = s.root ∧ (restore_db s).1.liveWs = s.liveWs := by
  cases hr : s.root with
  | none => simp [restore_db, hr]
  | some r =>
    cases hc : dbChosen r with
    | none => simp [restore_db, hr, hc]
    | some chosen =>
      cases hl : lookupEntry r chosen with
      | none => simp [restore_db, hr, hc, hl]
      | some v => cases v <;> simp [restore_db, hr, hc, hl]

theorem restore_ws_frame (s : St) :
    (restore_workspace s).1.root = s.root ∧ (restore_workspace s).1.liveDb = s.liveDb := by
  cases hr : s.root with
  | none => simp [restore_workspace, hr]
  | some r =>
    cases hc : wsChosen r with
    | none => simp [restore_workspace, hr, hc]
    | some chosen =>
      cases hl : lookupEntry r chosen with
      | none => simp [restore_workspace, hr, hc, hl]
      | some v => cases v <;> simp [restore_workspace, hr, hc, hl]

/-- C10: the restore scripts never create, modify or delete anything inside
the backup root, and each one writes only to its own live path: `restore_db`
leaves the live workspace alone and `restore_workspace` leaves the live
database alone. -/
theorem restore_frames_backup_root (s : St) :
    (restore_db s).1.root = s.root ∧
    (restore_workspace s).1.root = s.root ∧
    (restore_db s).1.liveWs = s.liveWs ∧
    (restore_workspace s).1.liveDb = s.liveDb :=
  ⟨(restore_db_frame s).1, (restore_ws_frame s).1,
   (restore_db_frame s).2, (restore_ws_frame s).2⟩

/-- C3: when the backup root is absent, or holds no entry matching the
mode's filter, each restore script exits non-zero and the whole state
(live database, live workspace, backup root) is untouched. -/
theorem restore_no_match_noop (s : St) :
    ((s.root = none ∨ ∃ r, s.root = some r ∧ (r.map Prod.fst).filter dbMatch = []) →
      (restore_db s).1 = s ∧ exitCode (restore_db s).2 ≠ 0) ∧
    ((s.root = none ∨ ∃ r, s.root = some r ∧ (r.map Prod.fst).filter wsMatch = []) →
      (restore_workspace s).1 = s ∧ exitCode (restore_workspace s).2 ≠ 0) := by
  constructor
  · intro h
    rcases h with h | ⟨r, hr, hf⟩
    · simp [restore_db, h, exitCode]
    · have hch : dbChosen r = none := by
        unfold dbChosen
        rw [hf]
        rfl
      simp [restore_db, hr, hch, exitCode]
  · intro h
    rcases h with h | ⟨r, hr, hf⟩
    · simp [restore_workspace, h, exitCode]
    · have hch : wsChosen r = none := by
        unfold wsChosen
        rw [hf]
        rfl
      simp [restore_workspace, hr, hch, exitCode]

theorem restore_no_match_noop_w :
    ((St.mk (some [1]) (some []) none).root = none) ∧
    ((restore_db (St.mk (some [1]) (some []) none)).1 = St.mk (some [1]) (some []) none ∧
      exitCode (restore_db (St.mk (some [1]) (some []) none)).2 ≠ 0) ∧
    ((restore_workspace (St.mk (some [1]) (some []) none)).1 = St.mk (some [1]) (some []) none ∧
      exitCode (restore_workspace (St.mk (some [1]) (some []) none)).2 ≠ 0) :=
  ⟨rfl,
   (restore_no_match_noop (St.mk (some [1]) (some []) none)).1 (Or.inl rfl),
   (restore_no_match_noop (St.mk (some [1]) (some []) none)).2 (Or.inl rfl)⟩

/-- C4: when the backup source is absent, the backup script exits 0 and the
only possible change is creating the (possibly already existing) backup
root directory with its contents untouched. -/
theorem backup_absent_source_noop (s : St) (ts : String) :
    (s.liveDb = none →
      (backup_db ts s).1 = { s with root := some (s.root.getD []) } ∧
      exitCode (backup_db ts s).2 = 0) ∧
    (s.liveWs = none →
      (backup_workspace ts s).1 = { s with root := some (s.root.getD []) } ∧
      exitCode (backup_workspace ts s).2 = 0) := by
  constructor
  · intro h
    simp [backup_db, h, exitCode]
  · intro h
    simp [backup_workspace, h, exitCode]

theorem backup_absent_source_noop_w :
    ((St.mk none none none).liveDb = none) ∧
    ((backup_db "20240101_000000" (St.mk none none none)).1 =
        { St.mk none none none with root := some ((St.mk none none none).root.getD []) } ∧
      exitCode (backup_db "20240101_000000" (St.mk none none none)).2 = 0) ∧
    ((backup_workspace "20240101_000000" (St.mk none none none)).1 =
        { St.mk none none none with root := some ((St.mk none none none).root.getD []) } ∧
      exitCode (backup_workspace "20240101_000000" (St.mk none none none)).2 = 0) :=
  ⟨rfl,
   (backup_absent_source_noop (St.mk none none none) "20240101_000000").1 rfl,
   (backup_absent_source_noop (St.mk none none none) "20240101_000000").2 rfl⟩

/-- C5: when the destination directory of `backup_workspace` already
exists (a second invocation in the same clock second), the copy fails with
an error and the existing artifact is not overwritten: the backup root
keeps exactly its previous contents. -/
theorem backup_ws_collision_fails (s : St) (ts : String) (d : Entries)
    (hws : s.liveWs = some d)
    (hcol : lookupEntry (s.root.getD []) (dstWsName ts) ≠ none) :
    (backup_workspace ts s).2 = .err "FileExistsError" ∧
    (backup_workspace ts s).1.root = some (s.root.getD []) := by
  cases hl : lookupEntry (s.root.getD []) (dstWsName ts) with
  | none => exact absurd hl hcol
  | some v => simp [backup_workspace, hws, hl]

theorem backup_ws_collision_fails_w :
    ((St.mk none (some []) (some [("workspace_backup_20240101_000000", FNode.dir [])])).liveWs
        = some []) ∧
    (lookupEntry ((St.mk none (some [])
        (some [("workspace_backup_20240101_000000", FNode.dir [])])).root.getD [])
        (dstWsName "20240101_000000") ≠ none) ∧
    ((backup_workspace "20240101_000000" (St.mk none (some [])
        (some [("workspace_backup_20240101_000000", FNode.dir [])]))).2
        = .err "FileExistsError" ∧
      (backup_workspace "20240101_000000" (St.mk none (some [])
        (some [("workspace_backup_20240101_000000", FNode.dir [])]))).1.root
        = some ((St.mk none (some [])
        (some [("workspace_backup_20240101_000000", FNode.dir [])])).root.getD [])) :=
  ⟨rfl, fun h => Option.noConfusion h,
   backup_ws_collision_fails _ "20240101_000000" [] rfl (fun h => Option.noConfusion h)⟩

/-- C6: with an existing live workspace and a chosen workspace artifact
that is a directory, `restore_workspace` replaces the live workspace
wholesale: afterwards it holds exactly the contents of the chosen backup,
irrespective of what it held before. -/
theorem restore_ws_replaces (s : St) (w r : Entries) (m : String) (d : Entries)
    (_hws : s.liveWs = some w) (hr : s.root = some r)
    (hm : wsChosen r = some m) (hd : lookupEntry r m = some (.dir d)) :
    (restore_workspace s).1.liveWs = some d ∧
    (restore_workspace s).1.liveDb = s.liveDb ∧
    exitCode (restore_workspace s).2 = 0 := by
  simp [restore_workspace, hr, hm, hd, exitCode]

/-- Concrete state for the C6 witness: the live workspace holds
`stale.txt`, the only backup artifact does not. -/
def staleSt : St :=
  St.mk none (some [("stale.txt", FNode.file [0])])
    (some [("workspace_backup_20240101_000000", FNode.dir [("keep.txt", FNode.file [1])])])

theorem restore_ws_replaces_w :
    (staleSt.liveWs = some [("stale.txt", FNode.file [0])]) ∧
    (staleSt.root = some [("workspace_backup_20240101_000000",
        FNode.dir [("keep.txt", FNode.file [1])])]) ∧
    (wsChosen [("workspace_backup_20240101_000000", FNode.dir [("keep.txt", FNode.file [1])])]
        = some "workspace_backup_20240101_000000") ∧
    ((restore_workspace staleSt).1.liveWs = some [("keep.txt", FNode.file [1])] ∧
      (restore_workspace staleSt).1.liveDb = staleSt.liveDb ∧
      exitCode (restore_workspace staleSt).2 = 0) ∧
    lookupEntry [("keep.txt", FNode.file [1])] "stale.txt" = none :=
  ⟨rfl, rfl, by decide,
   restore_ws_replaces staleSt [("stale.txt", FNode.file [0])]
     [("workspace_backup_20240101_000000", FNode.dir [("keep.txt", FNode.file [1])])]
     "workspace_backup_20240101_000000" [("keep.txt", FNode.file [1])]
     rfl rfl (by decide) rfl,
   rfl⟩

/-- C2: whenever the backup root holds at least one entry matching a
restore script's filter, that script selects exactly the lexicographically
greatest matching filename. -/
theorem restore_selects_latest (root : Entries) :
    ((root.map Prod.fst).filter dbMatch ≠ [] →
      ∃ m, dbChosen root = some m ∧
        m ∈ (root.map Prod.fst).filter dbMatch ∧
        ∀ x ∈ (root.map Prod.fst).filter dbMatch, lexLt m.data x.data = false) ∧
    ((root.map Prod.fst).filter wsMatch ≠ [] →
      ∃ m, wsChosen root = some m ∧
        m ∈ (root.map Prod.fst).filter wsMatch ∧
        ∀ x ∈ (root.map Prod.fst).filter wsMatch, lexLt m.data x.data = false) := by
  constructor
  · intro h
    obtain ⟨m, hm⟩ := latest_some_of_ne_nil h
    obtain ⟨hmem, hmax⟩ := latest_mem_max hm
    exact ⟨m, hm, hmem, hmax⟩
  · intro h
    obtain ⟨m, hm⟩ := latest_some_of_ne_nil h
    obtain ⟨hmem, hmax⟩ := latest_mem_max hm
    exact ⟨m, hm, hmem, hmax⟩

/-- Backup root used in the C2 witness: the three timestamps of the spec's
latest-selection example, for both artifact kinds. -/
def selRoot : Entries :=
  [("db_backup_20240101_010000.sqlite3", FNode.file [1]),
   ("db_backup_20240101_020000.sqlite3", FNode.file [2]),
   ("db_backup_20231231_235959.sqlite3", FNode.file [3]),
   ("workspace_backup_20240101_010000", FNode.dir []),
   ("workspace_backup_20240101_020000", FNode.dir []),
   ("workspace_backup_20231231_235959", FNode.dir [])]

theorem restore_selects_latest_w :
    ((selRoot.map Prod.fst).filter dbMatch ≠ []) ∧
    (∃ m, dbChosen selRoot = some m ∧
      m ∈ (selRoot.map Prod.fst).filter dbMatch ∧
      ∀ x ∈ (selRoot.map Prod.fst).filter dbMatch, lexLt m.data x.data = false) ∧
    ((selRoot.map Prod.fst).filter wsMatch ≠ []) ∧
    (∃ m, wsChosen selRoot = some m ∧
      m ∈ (selRoot.map Prod.fst).filter wsMatch ∧
      ∀ x ∈ (selRoot.map Prod.fst).filter wsMatch, lexLt m.data x.data = false) ∧
    dbChosen selRoot = some "db_backup_20240101_020000.sqlite3" ∧
    wsChosen selRoot = some "workspace_backup_20240101_020000" :=
  ⟨by decide, (restore_selects_latest selRoot).1 (by decide),
   by decide, (restore_selects_latest selRoot).2 (by decide),
   by decide, by decide⟩

/-! ### Helpers for C8 -/

theorem restore_db_not_noBackup {s : St} {r : Entries} {m : String}
    (hr : s.root = some r) (hm : dbChosen r = some m) :
    (restore_db s).2 ≠ .err "No DB backup found." := by
  cases hl : lookupEntry r m with
  | none => simp [restore_db, hr, hm, hl]
  | some v => cases v <;> simp [restore_db, hr, hm, hl]

theorem restore_ws_not_noBackup {s : St} {r : Entries} {m : String}
    (hr : s.root = some r) (hm : wsChosen r = some m) :
    (restore_workspace s).2 ≠ .err "No workspace backup found." := by
  cases hl : lookupEntry r m with
  | none => simp [restore_workspace, hr, hm, hl]
  | some v => cases v <;> simp [restore_workspace, hr, hm, hl]

theorem mem_names_of_lookup_ne_none {r : Entries} {k : String}
    (h : lookupEntry r k ≠ none) : k ∈ r.map Prod.fst := by
  by_contra hc
  exact h (lookup_none_iff.mpr hc)

/-- C8: the artifact names the backup scripts produce are exactly
`db_backup_<ts>.sqlite3` and `workspace_backup_<ts>`; each satisfies the
corresponding restore filter, and a restore run right after a successful
backup never reports that no backup was found. -/
theorem backup_then_restore_finds (ts : String) (s : St) :
    dstDbName ts = "db_backup_" ++ ts ++ ".sqlite3" ∧
    dstWsName ts = "workspace_backup_" ++ ts ∧
    dbMatch (dstDbName ts) = true ∧
    wsMatch (dstWsName ts) = true ∧
    (∀ b, s.liveDb = some b →
      (restore_db (backup_db ts s).1).2 ≠ .err "No DB backup found.") ∧
    (∀ d, s.liveWs = some d →
      (backup_workspace ts s).2 = .ok ("Workspace backup created: backups/" ++ dstWsName ts) →
      (restore_workspace (backup_workspace ts s).1).2 ≠ .err "No workspace backup found.") := by
  refine ⟨rfl, rfl, dbMatch_dst ts, wsMatch_dst ts, ?_, ?_⟩
  · intro b hb
    have hstate : (backup_db ts s).1 =
        { s with root := some (copy2Into (s.root.getD []) (dstDbName ts) "workspace.db" b) } := by
      simp [backup_db, hb]
    have hmem : dstDbName ts ∈
        (copy2Into (s.root.getD []) (dstDbName ts) "workspace.db" b).map Prod.fst :=
      mem_names_of_lookup_ne_none
        (lookup_copy2Into_self (s.root.getD []) (dstDbName ts) "workspace.db" b)
    have hfil : dstDbName ts ∈
        ((copy2Into (s.root.getD []) (dstDbName ts) "workspace.db" b).map Prod.fst).filter
          dbMatch :=
      List.mem_filter.mpr ⟨hmem, dbMatch_dst ts⟩
    obtain ⟨m, hm⟩ := latest_some_of_ne_nil (List.ne_nil_of_mem hfil)
    exact restore_db_not_noBackup (by rw [hstate]) hm
  · intro d hd hok
    have hfresh : lookupEntry (s.root.getD []) (dstWsName ts) = none := by
      cases hl : lookupEntry (s.root.getD []) (dstWsName ts) with
      | none => rfl
      | some v =>
        rw [show (backup_workspace ts s).2 = .err "FileExistsError" from by
          simp [backup_workspace, hd, hl]] at hok
        cases hok
    have hstate : (backup_workspace ts s).1 =
        { s with root := some (insertEntry (s.root.getD []) (dstWsName ts) (.dir d)) } := by
      simp [backup_workspace, hd, hfresh]
    have hmem : dstWsName ts ∈
        (insertEntry (s.root.getD []) (dstWsName ts) (.dir d)).map Prod.fst :=
      mem_names_of_lookup_ne_none (by
        rw [lookup_insert]
        exact Option.noConfusion)
    have hfil : dstWsName ts ∈
        ((insertEntry (s.root.getD []) (dstWsName ts) (.dir d)).map Prod.fst).filter wsMatch :=
      List.mem_filter.mpr ⟨hmem, wsMatch_dst ts⟩
    obtain ⟨m, hm⟩ := latest_some_of_ne_nil (List.ne_nil_of_mem hfil)
    exact restore_ws_not_noBackup (by rw [hstate]) hm

theorem backup_then_restore_finds_w :
    ((St.mk (some [1]) (some [("a.txt", FNode.file [2])]) none).liveDb = some [1]) ∧
    ((St.mk (some [1]) (some [("a.txt", FNode.file [2])]) none).liveWs
        = some [("a.txt", FNode.file [2])]) ∧
    ((backup_workspace "20240101_000000"
        (St.mk (some [1]) (some [("a.txt", FNode.file [2])]) none)).2
        = .ok ("Workspace backup created: backups/" ++ dstWsName "20240101_000000")) ∧
    ((restore_db (backup_db "20240101_000000"
        (St.mk (some [1]) (some [("a.txt", FNode.file [2])]) none)).1).2
        ≠ .err "No DB backup found.") ∧
    ((restore_workspace (backup_workspace "20240101_000000"
        (St.mk (some [1]) (some [("a.txt", FNode.file [2])]) none)).1).2
        ≠ .err "No workspace backup found.") :=
  ⟨rfl, rfl, rfl,
   (backup_then_restore_finds "20240101_000000"
     (St.mk (some [1]) (some [("a.txt", FNode.file [2])]) none)).2.2.2.2.1 [1] rfl,
   (backup_then_restore_finds "20240101_000000"
     (St.mk (some [1]) (some [("a.txt", FNode.file [2])]) none)).2.2.2.2.2
     [("a.txt", FNode.file [2])] rfl rfl⟩

/-- C1: `backup_db` then immediately `restore_db`, with the live database
untouched in between and the clock timestamp strictly above every
timestamp embedded in the backup root's db artifacts (all in the
fixed-width 15-character `YYYYMMDD_HHMMSS` format), restores the live
database to exactly its pre-backup bytes. -/
theorem roundtrip_db (s : St) (ts : String) (b : Bytes)
    (hdb : s.liveDb = some b)
    (hts : ts.data.length = 15)
    (hroot : ∀ n ∈ (s.root.getD []).map Prod.fst, dbMatch n = true →
      ∃ u : String, n = dstDbName u ∧ u.data.length = 15 ∧ lexLt u.data ts.data = true) :
    (restore_db (backup_db ts s).1).1.liveDb = some b ∧
    (restore_db (backup_db ts s).1).1.liveWs = s.liveWs ∧
    exitCode (restore_db (backup_db ts s).1).2 = 0 := by
  have hfresh : lookupEntry (s.root.getD []) (dstDbName ts) = none := by
    cases hl : lookupEntry (s.root.getD []) (dstDbName ts) with
    | none => rfl
    | some v =>
      have hmem := lookup_some_mem hl
      obtain ⟨u, hu, hul, hult⟩ := hroot _ hmem (dbMatch_dst ts)
      have hdata : ts.data = u.data := by
        have h2 := congrArg String.data hu
        rw [dstDbName_data, dstDbName_data] at h2
        exact List.append_cancel_left (List.append_cancel_right h2)
      rw [← hdata, lexLt_irrefl] at hult
      cases hult
  have hcopy : copy2Into (s.root.getD []) (dstDbName ts) "workspace.db" b =
      insertEntry (s.root.getD []) (dstDbName ts) (.file b) := by
    unfold copy2Into
    rw [hfresh]
  have hnames : (insertEntry (s.root.getD []) (dstDbName ts) (.file b)).map Prod.fst =
      (s.root.getD []).map Prod.fst ++ [dstDbName ts] :=
    names_insert_of_fresh _ hfresh
  have hfil : ((insertEntry (s.root.getD []) (dstDbName ts) (.file b)).map Prod.fst).filter
        dbMatch =
      ((s.root.getD []).map Prod.fst).filter dbMatch ++ [dstDbName ts] := by
    rw [hnames, List.filter_append]
    simp [List.filter_cons, dbMatch_dst ts]
  have hmax : ∀ x ∈ ((insertEntry (s.root.getD []) (dstDbName ts) (.file b)).map
        Prod.fst).filter dbMatch,
      x = dstDbName ts ∨ lexLt x.data (dstDbName ts).data = true := by
    intro x hx
    rw [hfil] at hx
    rcases List.mem_append.mp hx with hx | hx
    · right
      have hx' := List.mem_filter.mp hx
      obtain ⟨u, hu, hul, hult⟩ := hroot x hx'.1 hx'.2
      subst hu
      rw [dstDbName_data, dstDbName_data, List.append_assoc, List.append_assoc,
        lexLt_append_left]
      exact lexLt_append_of_lt u.data ts.data _ _ (hul.trans hts.symm) hult
    · left
      simpa using hx
  have hch : dbChosen (insertEntry (s.root.getD []) (dstDbName ts) (.file b)) =
      some (dstDbName ts) := by
    apply latest_eq_of_max
    · rw [hfil]
      exact List.mem_append.mpr (Or.inr (by simp))
    · exact hmax
  have hlk : lookupEntry (insertEntry (s.root.getD []) (dstDbName ts) (.file b))
      (dstDbName ts) = some (.file b) := lookup_insert _ _ _
  have hstate : (backup_db ts s).1 =
      { s with root := some (insertEntry (s.root.getD []) (dstDbName ts) (.file b)) } := by
    simp [backup_db, hdb, hcopy]
  rw [hstate]
  simp [restore_db, hch, hlk, exitCode]

theorem roundtrip_db_w :
    ((St.mk (some [3]) none none).liveDb = some [3]) ∧
    (("20240102_000000" : String).data.length = 15) ∧
    ((restore_db (backup_db "20240102_000000" (St.mk (some [3]) none none)).1).1.liveDb
        = some [3] ∧
      (restore_db (backup_db "20240102_000000" (St.mk (some [3]) none none)).1).1.liveWs
        = (St.mk (some [3]) none none).liveWs ∧
      exitCode (restore_db (backup_db "20240102_000000" (St.mk (some [3]) none none)).1).2
        = 0) :=
  ⟨rfl, by decide,
   roundtrip_db (St.mk (some [3]) none none) "20240102_000000" [3] rfl (by decide)
     (fun n hn _ => absurd hn (List.not_mem_nil n))⟩

/-- C7 counterexample: with an artifact `db_backup_20240101_000000.sqlite3`
holding bytes `[1]` already in the backup root and the live database
holding `[2]`, running `backup_db` in the same clock second replaces the
existing artifact's contents with `[2]`: artifacts are not immutable under
`backup_db`. -/
theorem artifact_mutation_ce :
    lookupEntry ((St.mk (some [2]) none
        (some [("db_backup_20240101_000000.sqlite3", FNode.file [1])])).root.getD [])
      "db_backup_20240101_000000.sqlite3" = some (FNode.file [1]) ∧
    lookupEntry ((backup_db "20240101_000000" (St.mk (some [2]) none
        (some [("db_backup_20240101_000000.sqlite3", FNode.file [1])]))).1.root.getD [])
      "db_backup_20240101_000000.sqlite3" = some (FNode.file [2]) :=
  ⟨rfl, rfl⟩

/-- C7 amended: artifacts already in the backup root are never modified or
replaced by any of the four scripts, with one exception: `backup_db`
overwrites the artifact at its own destination filename when that name
already exists (a second invocation within the same clock second).
`backup_workspace` in the same situation fails without touching the
existing artifact, and the restore scripts never change the backup root at
all. -/
theorem backup_artifact_immutability (s : St) (ts : String) :
    (∀ n, n ≠ dstDbName ts →
      lookupEntry ((backup_db ts s).1.root.getD []) n =
        lookupEntry (s.root.getD []) n) ∧
    (∀ n, lookupEntry ((backup_workspace ts s).1.root.getD []) n =
        lookupEntry (s.root.getD []) n ∨
      (n = dstWsName ts ∧ lookupEntry (s.root.getD []) n = none)) ∧
    (lookupEntry (s.root.getD []) (dstWsName ts) ≠ none →
      (backup_workspace ts s).1.root = some (s.root.getD [])) ∧
    (restore_db s).1.root = s.root ∧
    (restore_workspace s).1.root = s.root := by
  refine ⟨?_, ?_, ?_, (restore_db_frame s).1, (restore_ws_frame s).1⟩
  · intro n hn
    cases hdb : s.liveDb with
    | none => simp [backup_db, hdb]
    | some b =>
      have : (backup_db ts s).1.root.getD [] =
          copy2Into (s.root.getD []) (dstDbName ts) "workspace.db" b := by
        simp [backup_db, hdb]
      rw [this]
      unfold copy2Into
      cases hl : lookupEntry (s.root.getD []) (dstDbName ts) with
      | none => exact lookup_insert_ne _ _ _ _ hn
      | some v => cases v <;> exact lookup_insert_ne _ _ _ _ hn
  · intro n
    cases hws : s.liveWs with
    | none => left; simp [backup_workspace, hws]
    | some d =>
      cases hl : lookupEntry (s.root.getD []) (dstWsName ts) with
      | some v => left; simp [backup_workspace, hws, hl]
      | none =>
        by_cases hn : n = dstWsName ts
        · subst hn
          right
          exact ⟨rfl, hl⟩
        · left
          have : (backup_workspace ts s).1.root.getD [] =
              insertEntry (s.root.getD []) (dstWsName ts) (.dir d) := by
            simp [backup_workspace, hws, hl]
          rw [this]
          exact lookup_insert_ne _ _ _ _ hn
  · intro hcol
    cases hws : s.liveWs with
    | none => simp [backup_workspace, hws]
    | some d =>
      cases hl : lookupEntry (s.root.getD []) (dstWsName ts) with
      | none => exact absurd hl hcol
      | some v => simp [backup_workspace, hws, hl]

theorem backup_artifact_immutability_w :
    (("other.txt" : String) ≠ dstDbName "20240101_000000") ∧
    (lookupEntry ((backup_db "20240101_000000" (St.mk (some [2]) none
        (some [("other.txt", FNode.file [9])]))).1.root.getD []) "other.txt" =
      lookupEntry ((St.mk (some [2]) none
        (some [("other.txt", FNode.file [9])])).root.getD []) "other.txt") ∧
    (lookupEntry ((St.mk none (some [])
        (some [("workspace_backup_20240101_000000", FNode.dir [])])).root.getD [])
        (dstWsName "20240101_000000") ≠ none) ∧
    ((backup_workspace "20240101_000000" (St.mk none (some [])
        (some [("workspace_backup_20240101_000000", FNode.dir [])]))).1.root =
      some ((St.mk none (some [])
        (some [("workspace_backup_20240101_000000", FNode.dir [])])).root.getD [])) :=
  ⟨by decide,
   (backup_artifact_immutability (St.mk (some [2]) none
      (some [("other.txt", FNode.file [9])])) "20240101_000000").1 "other.txt" (by decide),
   fun h => Option.noConfusion h,
   (backup_artifact_immutability (St.mk none (some [])
      (some [("workspace_backup_20240101_000000", FNode.dir [])]))
      "20240101_000000").2.2.1 (fun h => Option.noConfusion h)⟩

/-! ### Helpers for C9 -/

theorem lookup_some_pair_mem {r : Entries} {k : String} {v : FNode}
    (h : lookupEntry r k = some v) : (k, v) ∈ r := by
  induction r with
  | nil => simp [lookupEntry] at h
  | cons e rest ih =>
    obtain ⟨n, w⟩ := e
    by_cases hn : n = k
    · subst hn
      simp [lookupEntry] at h
      subst h
      exact List.mem_cons_self _ _
    · simp [lookupEntry, hn] at h
      exact List.mem_cons_of_mem _ (ih h)

theorem names_setEq {r1 r2 : Entries}
    (hset : ∀ e : String × FNode, e ∈ r1 ↔ e ∈ r2) (n : String) :
    n ∈ r1.map Prod.fst ↔ n ∈ r2.map Prod.fst := by
  constructor
  · intro hn
    obtain ⟨e, he, hfst⟩ := List.mem_map.mp hn
    exact List.mem_map.mpr ⟨e, (hset e).mp he, hfst⟩
  · intro hn
    obtain ⟨e, he, hfst⟩ := List.mem_map.mp hn
    exact List.mem_map.mpr ⟨e, (hset e).mpr he, hfst⟩

theorem filter_names_setEq {r1 r2 : Entries}
    (hset : ∀ e : String × FNode, e ∈ r1 ↔ e ∈ r2) (p : String → Bool) (n : String) :
    n ∈ (r1.map Prod.fst).filter p ↔ n ∈ (r2.map Prod.fst).filter p := by
  constructor
  · intro hn
    have h' := List.mem_filter.mp hn
    exact List.mem_filter.mpr ⟨(names_setEq hset n).mp h'.1, h'.2⟩
  · intro hn
    have h' := List.mem_filter.mp hn
    exact List.mem_filter.mpr ⟨(names_setEq hset n).mpr h'.1, h'.2⟩

theorem lookup_eq_of_setEq {r1 r2 : Entries}
    (_hnd1 : (r1.map Prod.fst).Nodup) (hnd2 : (r2.map Prod.fst).Nodup)
    (hset : ∀ e : String × FNode, e ∈ r1 ↔ e ∈ r2) (k : String) :
    lookupEntry r1 k = lookupEntry r2 k := by
  cases h1 : lookupEntry r1 k with
  | none =>
    have hno := lookup_none_iff.mp h1
    exact (lookup_none_iff.mpr (fun hc => hno ((names_setEq hset k).mpr hc))).symm
  | some v =>
    exact (lookup_mem_of_nodup hnd2 ((hset (k, v)).mp (lookup_some_pair_mem h1))).symm

theorem latest_mem_eq {l1 l2 : List String}
    (h : ∀ n, n ∈ l1 ↔ n ∈ l2) : latest l1 = latest l2 := by
  cases h1 : latest l1 with
  | none =>
    cases h2 : latest l2 with
    | none => rfl
    | some m2 =>
      have hm2 : m2 ∈ l1 := (h m2).mpr (latest_mem_max h2).1
      rw [latest_none_iff.mp h1] at hm2
      exact absurd hm2 (List.not_mem_nil m2)
  | some m1 =>
    cases h2 : latest l2 with
    | none =>
      have hm1 : m1 ∈ l2 := (h m1).mp (latest_mem_max h1).1
      rw [latest_none_iff.mp h2] at hm1
      exact absurd hm1 (List.not_mem_nil m1)
    | some m2 =>
      obtain ⟨hm1, hmax1⟩ := latest_mem_max h1
      obtain ⟨hm2, hmax2⟩ := latest_mem_max h2
      have e1 : lexLt m1.data m2.data = false := hmax1 m2 ((h m2).mpr hm2)
      have e2 : lexLt m2.data m1.data = false := hmax2 m1 ((h m1).mp hm1)
      exact congrArg some (String.ext (lexLt_eq_of_notLt _ _ e1 e2))

/-- C9: the restore scripts are insensitive to the order in which the
filesystem lists the backup root: two roots holding the same set of
entries (with no duplicate names, as in a real directory) yield the same
selected artifact and the same restore result. -/
theorem restore_listing_order_irrelevant (s1 s2 : St) (r1 r2 : Entries)
    (hr1 : s1.root = some r1) (hr2 : s2.root = some r2)
    (hdb : s1.liveDb = s2.liveDb) (hws : s1.liveWs = s2.liveWs)
    (hnd1 : (r1.map Prod.fst).Nodup) (hnd2 : (r2.map Prod.fst).Nodup)
    (hset : ∀ e : String × FNode, e ∈ r1 ↔ e ∈ r2) :
    dbChosen r1 = dbChosen r2 ∧ wsChosen r1 = wsChosen r2 ∧
    (restore_db s1).1.liveDb = (restore_db s2).1.liveDb ∧
    (restore_db s1).2 = (restore_db s2).2 ∧
    (restore_workspace s1).1.liveWs = (restore_workspace s2).1.liveWs ∧
    (restore_workspace s1).2 = (restore_workspace s2).2 := by
  have hchdb : dbChosen r1 = dbChosen r2 := latest_mem_eq (filter_names_setEq hset dbMatch)
  have hchws : wsChosen r1 = wsChosen r2 := latest_mem_eq (filter_names_setEq hset wsMatch)
  have hlk : ∀ k, lookupEntry r1 k = lookupEntry r2 k := lookup_eq_of_setEq hnd1 hnd2 hset
  have hdbres : (restore_db s1).1.liveDb = (restore_db s2).1.liveDb ∧
      (restore_db s1).2 = (restore_db s2).2 := by
    cases hc : dbChosen r2 with
    | none => simp [restore_db, hr1, hr2, hchdb, hc, hdb]
    | some m =>
      cases hl : lookupEntry r2 m with
      | none => simp [restore_db, hr1, hr2, hchdb, hc, hlk m, hl, hdb]
      | some v => cases v <;> simp [restore_db, hr1, hr2, hchdb, hc, hlk m, hl, hdb]
  have hwsres : (restore_workspace s1).1.liveWs = (restore_workspace s2).1.liveWs ∧
      (restore_workspace s1).2 = (restore_workspace s2).2 := by
    cases hc : wsChosen r2 with
    | none => simp [restore_workspace, hr1, hr2, hchws, hc, hws]
    | some m =>
      cases hl : lookupEntry r2 m with
      | none => simp [restore_workspace, hr1, hr2, hchws, hc, hlk m, hl, hws]
      | some v => cases v <;> simp [restore_workspace, hr1, hr2, hchws, hc, hlk m, hl, hws]
  exact ⟨hchdb, hchws, hdbres.1, hdbres.2, hwsres.1, hwsres.2⟩

/-- Backup roots used in the C9 witness: the same two entries, listed in
the two possible orders. -/
def permRootA : Entries :=
  [("db_backup_20240101_010000.sqlite3", FNode.file [1]),
   ("workspace_backup_20240101_010000", FNode.dir [])]

/-- The other listing order of `permRootA`. -/
def permRootB : Entries :=
  [("workspace_backup_20240101_010000", FNode.dir []),
   ("db_backup_20240101_010000.sqlite3", FNode.file [1])]

theorem restore_listing_order_irrelevant_w :
    ((permRootA.map Prod.fst).Nodup) ∧
    ((permRootB.map Prod.fst).Nodup) ∧
    (dbChosen permRootA = dbChosen permRootB ∧
      wsChosen permRootA = wsChosen permRootB ∧
      (restore_db (St.mk (some [0]) (some []) (some permRootA))).1.liveDb =
        (restore_db (St.mk (some [0]) (some []) (some permRootB))).1.liveDb ∧
      (restore_db (St.mk (some [0]) (some []) (some permRootA))).2 =
        (restore_db (St.mk (some [0]) (some []) (some permRootB))).2 ∧
      (restore_workspace (St.mk (some [0]) (some []) (some permRootA))).1.liveWs =
        (restore_workspace (St.mk (some [0]) (some []) (some permRootB))).1.liveWs ∧
      (restore_workspace (St.mk (some [0]) (some []) (some permRootA))).2 =
        (restore_workspace (St.mk (some [0]) (some []) (some permRootB))).2) :=
  ⟨by decide, by decide,
   restore_listing_order_irrelevant
     (St.mk (some [0]) (some []) (some permRootA))
     (St.mk (some [0]) (some []) (some permRootB))
     permRootA permRootB rfl rfl rfl rfl (by decide) (by decide)
     (by
       intro e
       simp only [permRootA, permRootB, List.mem_cons, List.not_mem_nil, or_false]
       tauto)⟩
